import Mathlib

/-!
Verification of the zoned-instant core (`DateTime<Tz>`) of the chrono
repository.  The `DateTime` layer itself is translated from
`src/datetime/mod.rs`; its external collaborators (the naive civil datetime
type, the timezone/offset capability and the format engine) are modelled from
the specification, as marked in the doc comments below.
-/

namespace Chrono

/-! Range constants: the seconds-since-epoch values of `NaiveDateTime::MIN`
(-262143-01-01T00:00:00) and `NaiveDateTime::MAX`
(262142-12-31T23:59:59.999999999), and the bounds of a 64-bit signed
integer. -/

def minSecs : Int := -8334601228800

def maxSecs : Int := 8210266876799

def i64Min : Int := -9223372036854775808

def i64Max : Int := 9223372036854775807

/-- Modelled from the spec: the naive civil datetime collaborator (the
"absolute instant"), represented by its count of non-leap seconds since the
Unix epoch together with the nanoseconds since the last second boundary.
A leap second is encoded by a `frac` field at or above one billion (spec
glossary).  Equality and the instant ordering are lexicographic on
`(secs, frac)`, which coincides with the collaborator's derived
date-then-time ordering. -/
structure NaiveDateTime where
  secs : Int
  frac : Int
  deriving DecidableEq

/-- Modelled from the spec: the public validity invariant of a naive civil
datetime: within the representable range, sub-second part nonnegative and
below two billion, and a leap second (nanosecond field at or above one
billion) only during the 59th second of a minute. -/
def NaiveDateTime.Valid (t : NaiveDateTime) : Prop :=
  minSecs ≤ t.secs ∧ t.secs ≤ maxSecs ∧ 0 ≤ t.frac ∧ t.frac < 2000000000 ∧
    (1000000000 ≤ t.frac → t.secs % 60 = 59)

instance (t : NaiveDateTime) : Decidable t.Valid := by
  unfold NaiveDateTime.Valid; exact inferInstance

/-- Instant ordering (non-strict), lexicographic on `(secs, frac)`. -/
def NaiveDateTime.le (a b : NaiveDateTime) : Prop :=
  a.secs < b.secs ∨ (a.secs = b.secs ∧ a.frac ≤ b.frac)

instance (a b : NaiveDateTime) : Decidable (NaiveDateTime.le a b) := by
  unfold NaiveDateTime.le; exact inferInstance

/-- Instant ordering (strict), lexicographic on `(secs, frac)`. -/
def NaiveDateTime.lt (a b : NaiveDateTime) : Prop :=
  a.secs < b.secs ∨ (a.secs = b.secs ∧ a.frac < b.frac)

instance (a b : NaiveDateTime) : Decidable (NaiveDateTime.lt a b) := by
  unfold NaiveDateTime.lt; exact inferInstance

/-- The derived structural equality test of the naive datetime type. -/
def NaiveDateTime.beq (a b : NaiveDateTime) : Bool :=
  a.secs == b.secs && a.frac == b.frac

/-- The derived total comparison of the naive datetime type (date, then
time), expressed on the `(secs, frac)` representation. -/
def NaiveDateTime.cmp (a b : NaiveDateTime) : Ordering :=
  if a.secs < b.secs then Ordering.lt
  else if b.secs < a.secs then Ordering.gt
  else if a.frac < b.frac then Ordering.lt
  else if b.frac < a.frac then Ordering.gt
  else Ordering.eq

/-- Total nanosecond count of the instant, counting an encoded leap second
as real elapsed time (the spec's asymmetric leap-second rule: leap seconds
are assumed not to exist except when an endpoint itself encodes one). -/
def NaiveDateTime.toNanos (t : NaiveDateTime) : Int :=
  t.secs * 1000000000 + t.frac

/-- Day number (days since the Unix epoch) of the instant. -/
def NaiveDateTime.days (t : NaiveDateTime) : Int :=
  t.secs / 86400

/-- Second of the day of the instant. -/
def NaiveDateTime.sod (t : NaiveDateTime) : Int :=
  t.secs % 86400

/-- Modelled from the spec: range check used by the naive collaborator's
checked constructors and arithmetic (failure outside the representable
range). -/
def NaiveDateTime.rangeCheck (t : NaiveDateTime) : Option NaiveDateTime :=
  if minSecs ≤ t.secs ∧ t.secs ≤ maxSecs then some t else Option.none

/-! Proleptic Gregorian calendar, modelled from the spec for the naive civil
datetime collaborator's field getters and setters. -/

/-- Leap year rule of the proleptic Gregorian calendar. -/
def isLeapYear (y : Int) : Bool :=
  y % 4 == 0 && (y % 100 != 0 || y % 400 == 0)

/-- Number of days in a month of the proleptic Gregorian calendar. -/
def daysInMonth (y m : Int) : Int :=
  if m = 2 then (if isLeapYear y then 29 else 28)
  else if m = 4 ∨ m = 6 ∨ m = 9 ∨ m = 11 then 30
  else 31

/-- Number of days in a year of the proleptic Gregorian calendar. -/
def daysInYear (y : Int) : Int :=
  if isLeapYear y then 366 else 365

/-- Civil date `(year, month, day)` of a day number (days since the Unix
epoch), for the proleptic Gregorian calendar. -/
def civilFromDays (z : Int) : Int × Int × Int :=
  let zs := z + 719468
  let era := zs / 146097
  let doe := zs - era * 146097
  let yoe := (doe - doe / 1460 + doe / 36524 - doe / 146096) / 365
  let y := yoe + era * 400
  let doy := doe - (365 * yoe + yoe / 4 - yoe / 100)
  let mp := (5 * doy + 2) / 153
  let d := doy - (153 * mp + 2) / 5 + 1
  let m := if mp < 10 then mp + 3 else mp - 9
  (if m ≤ 2 then y + 1 else y, m, d)

/-- Day number (days since the Unix epoch) of a civil date, for the
proleptic Gregorian calendar. -/
def daysFromCivil (y m d : Int) : Int :=
  let ya := if m ≤ 2 then y - 1 else y
  let era := ya / 400
  let yoe := ya - era * 400
  let mp := if 2 < m then m - 3 else m + 9
  let doy := (153 * mp + 2) / 5 + d - 1
  let doe := yoe * 365 + yoe / 4 - yoe / 100 + doy
  era * 146097 + doe - 719468

/-- Rebuild an instant from a day number, keeping a given second-of-day and
sub-second part, with the naive range check. -/
def NaiveDateTime.setDays (t : NaiveDateTime) (z : Int) : Option NaiveDateTime :=
  NaiveDateTime.rangeCheck ⟨z * 86400 + t.sod, t.frac⟩

/-- Modelled from the spec: the naive setter changing the year while keeping
month and day; fails when the resulting date does not exist or is out of
range. -/
def NaiveDateTime.withYear (t : NaiveDateTime) (y : Int) : Option NaiveDateTime :=
  match civilFromDays t.days with
  | (_, m, d) =>
    if d ≤ daysInMonth y m then t.setDays (daysFromCivil y m d) else Option.none

/-- Modelled from the spec: the naive setter changing the month (1-based). -/
def NaiveDateTime.withMonth (t : NaiveDateTime) (m : Int) : Option NaiveDateTime :=
  match civilFromDays t.days with
  | (y, _, d) =>
    if 1 ≤ m ∧ m ≤ 12 ∧ d ≤ daysInMonth y m then t.setDays (daysFromCivil y m d)
    else Option.none

/-- Modelled from the spec: the naive setter changing the month (0-based). -/
def NaiveDateTime.withMonth0 (t : NaiveDateTime) (m0 : Int) : Option NaiveDateTime :=
  t.withMonth (m0 + 1)

/-- Modelled from the spec: the naive setter changing the day of month
(1-based). -/
def NaiveDateTime.withDay (t : NaiveDateTime) (d : Int) : Option NaiveDateTime :=
  match civilFromDays t.days with
  | (y, m, _) =>
    if 1 ≤ d ∧ d ≤ daysInMonth y m then t.setDays (daysFromCivil y m d)
    else Option.none

/-- Modelled from the spec: the naive setter changing the day of month
(0-based). -/
def NaiveDateTime.withDay0 (t : NaiveDateTime) (d0 : Int) : Option NaiveDateTime :=
  t.withDay (d0 + 1)

/-- Modelled from the spec: the naive setter changing the day of year
(1-based). -/
def NaiveDateTime.withOrdinal (t : NaiveDateTime) (o : Int) : Option NaiveDateTime :=
  match civilFromDays t.days with
  | (y, _, _) =>
    if 1 ≤ o ∧ o ≤ daysInYear y then t.setDays (daysFromCivil y 1 1 + o - 1)
    else Option.none

/-- Modelled from the spec: the naive setter changing the day of year
(0-based). -/
def NaiveDateTime.withOrdinal0 (t : NaiveDateTime) (o0 : Int) : Option NaiveDateTime :=
  t.withOrdinal (o0 + 1)

/-- Modelled from the spec: the naive setter changing the hour. -/
def NaiveDateTime.withHour (t : NaiveDateTime) (h : Int) : Option NaiveDateTime :=
  if 0 ≤ h ∧ h < 24 then
    some ⟨t.days * 86400 + h * 3600 + t.sod % 3600, t.frac⟩
  else Option.none

/-- Modelled from the spec: the naive setter changing the minute. -/
def NaiveDateTime.withMinute (t : NaiveDateTime) (mi : Int) : Option NaiveDateTime :=
  if 0 ≤ mi ∧ mi < 60 then
    some ⟨t.days * 86400 + t.sod / 3600 * 3600 + mi * 60 + t.sod % 60, t.frac⟩
  else Option.none

/-- Modelled from the spec: the naive setter changing the second (range 0
through 59). -/
def NaiveDateTime.withSecond (t : NaiveDateTime) (s : Int) : Option NaiveDateTime :=
  if 0 ≤ s ∧ s < 60 then
    some ⟨t.days * 86400 + (t.sod - t.sod % 60) + s, t.frac⟩
  else Option.none

/-- Modelled from the spec: the naive setter changing the nanoseconds since
the whole non-leap second; values up to but excluding two billion are
accepted (leap-second encoding). -/
def NaiveDateTime.withNanosecond (t : NaiveDateTime) (n : Int) : Option NaiveDateTime :=
  if 0 ≤ n ∧ n < 2000000000 then some ⟨t.secs, n⟩ else Option.none

/-- Modelled from the spec: naive calendar-month addition; the day of month
is clamped to the last valid day of the target month, and the result is
range checked. -/
def NaiveDateTime.checkedMonthsAdd (t : NaiveDateTime) (n : Int) : Option NaiveDateTime :=
  match civilFromDays t.days with
  | (y, m, d) =>
    let mo := y * 12 + (m - 1) + n
    let y2 := mo / 12
    let m2 := mo % 12 + 1
    let d2 := min d (daysInMonth y2 m2)
    t.setDays (daysFromCivil y2 m2 d2)

/-- Modelled from the spec: naive calendar-month subtraction. -/
def NaiveDateTime.checkedMonthsSub (t : NaiveDateTime) (n : Int) : Option NaiveDateTime :=
  t.checkedMonthsAdd (-n)

/-- Modelled from the spec: naive calendar-day addition with range check. -/
def NaiveDateTime.checkedDaysAdd (t : NaiveDateTime) (n : Int) : Option NaiveDateTime :=
  t.setDays (t.days + n)

/-- Modelled from the spec: naive calendar-day subtraction with range
check. -/
def NaiveDateTime.checkedDaysSub (t : NaiveDateTime) (n : Int) : Option NaiveDateTime :=
  t.setDays (t.days - n)

/-- A signed duration, modelled as a count of nanoseconds. -/
abbrev TimeDelta := Int

/-- Largest magnitude of a `TimeDelta`: `i64::MAX` milliseconds plus 999999
nanoseconds. -/
def timeDeltaMaxNanos : Int := 9223372036854775807999999

/-- Modelled from the spec: naive duration addition — pure instant
arithmetic over the total nanosecond count (leap seconds of the endpoint are
counted as elapsed time, the spec's asymmetric rule), with range check. -/
def NaiveDateTime.checkedAddSigned (t : NaiveDateTime) (d : TimeDelta) : Option NaiveDateTime :=
  let n := t.toNanos + d
  NaiveDateTime.rangeCheck ⟨n / 1000000000, n % 1000000000⟩

/-- Modelled from the spec: naive duration subtraction. -/
def NaiveDateTime.checkedSubSigned (t : NaiveDateTime) (d : TimeDelta) : Option NaiveDateTime :=
  t.checkedAddSigned (-d)

/-- Modelled from the spec: the signed difference of two absolute instants;
total, computed purely from the two instants. -/
def NaiveDateTime.signedDurationSince (a b : NaiveDateTime) : TimeDelta :=
  a.toNanos - b.toNanos

/-- Modelled from the spec: the epoch-nanosecond accessor of the naive
collaborator; fails when the count does not fit a 64-bit signed integer. -/
def NaiveDateTime.timestampNanos (t : NaiveDateTime) : Option Int :=
  if i64Min ≤ t.toNanos ∧ t.toNanos ≤ i64Max then some t.toNanos else Option.none

/-- Modelled from the spec: construction from a Unix-epoch second count plus
sub-second nanoseconds; fails for out-of-range seconds or a nanosecond value
inconsistent with the leap-second encoding (allowed to reach one whole
second only during the 59th second of a minute). -/
def NaiveDateTime.fromTimestamp (secs nsecs : Int) : Option NaiveDateTime :=
  if (minSecs ≤ secs ∧ secs ≤ maxSecs) ∧ 0 ≤ nsecs ∧
      (nsecs < 1000000000 ∨ (nsecs < 2000000000 ∧ secs % 60 = 59)) then
    some ⟨secs, nsecs⟩
  else Option.none

/-- Modelled from the spec: construction from a Unix-epoch millisecond
count. -/
def NaiveDateTime.fromTimestampMillis (ms : Int) : Option NaiveDateTime :=
  NaiveDateTime.fromTimestamp (ms / 1000) (ms % 1000 * 1000000)

/-- Modelled from the spec: the epoch-millisecond accessor. -/
def NaiveDateTime.timestampMillis (t : NaiveDateTime) : Int :=
  t.secs * 1000 + t.frac / 1000000

/-- Modelled from the spec: checked offset addition of the naive
collaborator (fails outside the representable range). -/
def NaiveDateTime.checkedAddOffset (t : NaiveDateTime) (o : Int) : Option NaiveDateTime :=
  NaiveDateTime.rangeCheck ⟨t.secs + o, t.frac⟩

/-- Modelled from the spec: checked offset subtraction of the naive
collaborator. -/
def NaiveDateTime.checkedSubOffset (t : NaiveDateTime) (o : Int) : Option NaiveDateTime :=
  NaiveDateTime.rangeCheck ⟨t.secs - o, t.frac⟩

/-- Modelled from the spec: overflowing offset addition, the permissive
projection with buffer headroom that never fails. -/
def NaiveDateTime.overflowingAddOffset (t : NaiveDateTime) (o : Int) : NaiveDateTime :=
  ⟨t.secs + o, t.frac⟩

/-- The Unix epoch as a naive datetime (also the collaborator's `Default`
origin value, per the spec). -/
def unixEpochNdt : NaiveDateTime := ⟨0, 0⟩

/-! The timezone/offset capability, modelled from the spec. -/

/-- Modelled from the spec: the result of resolving a local civil datetime,
distinguishing none, a single instant, and two candidates with an explicit
earlier/later ordering. -/
inductive LocalResult (α : Type) where
  | none
  | single (x : α)
  | ambiguous (earliest latest : α)
  deriving DecidableEq

/-- The unique candidate, if the resolution yielded exactly one. -/
def LocalResult.singleOpt {α : Type} : LocalResult α → Option α
  | LocalResult.single x => some x
  | _ => Option.none

/-- Candidate-wise composition with a fallible map; an ambiguous result
stays ambiguous only when both candidates survive. -/
def LocalResult.andThen {α β : Type} : LocalResult α → (α → Option β) → LocalResult β
  | LocalResult.none, _ => LocalResult.none
  | LocalResult.single x, f =>
    match f x with
    | some y => LocalResult.single y
    | Option.none => LocalResult.none
  | LocalResult.ambiguous a b, f =>
    match f a, f b with
    | some a2, some b2 => LocalResult.ambiguous a2 b2
    | _, _ => LocalResult.none

/-- Modelled from the spec: the timezone capability, generic over its offset
type `O`.  The first argument of the two resolution fields is the stored
offset from which the timezone value is reconstructed (the `from_offset`
contract); `fix` is the fixed signed UTC shift of an offset value, in
seconds. -/
structure TimeZoneSpec (O : Type) where
  fix : O → Int
  offsetFromUtc : O → NaiveDateTime → O
  offsetFromLocal : O → NaiveDateTime → LocalResult O

/-! The zoned instant type and its operations, translated from
`src/datetime/mod.rs`. -/

/-- The zoned instant: a naive civil datetime that is always UTC, plus the
offset fixed at construction (`DateTime<Tz>`). -/
structure DateTime (O : Type) where
  datetime : NaiveDateTime
  offset : O
  deriving DecidableEq

/-- Construction from components (`from_naive_utc_and_offset`): total,
stores both fields as-is. -/
def DateTime.fromNaiveUtcAndOffset {O : Type} (ndt : NaiveDateTime) (o : O) : DateTime O :=
  ⟨ndt, o⟩

/-- Projection of a timezone's view of a UTC instant
(`TimeZone::from_utc_datetime`, modelled from the spec): pairs the instant
with the capability's offset at that instant. -/
def fromUtcDatetime {O : Type} (tz : TimeZoneSpec O) (seed : O) (utc : NaiveDateTime) :
    DateTime O :=
  ⟨utc, tz.offsetFromUtc seed utc⟩

/-- Resolution of a local civil datetime against a timezone
(`TimeZone::from_local_datetime`, modelled from the spec): zero, one or two
candidate instants, each obtained by subtracting the candidate offset with
the range-checked conversion. -/
def fromLocalDatetime {O : Type} (tz : TimeZoneSpec O) (seed : O) (lcl : NaiveDateTime) :
    LocalResult (DateTime O) :=
  (tz.offsetFromLocal seed lcl).andThen fun off =>
    (lcl.checkedSubOffset (tz.fix off)).map fun utc => ⟨utc, off⟩

/-- The permissive local projection (`overflowing_naive_local`): adds the
offset's fixed shift with buffer headroom, never fails. -/
def DateTime.overflowingNaiveLocal {O : Type} (tz : TimeZoneSpec O) (dt : DateTime O) :
    NaiveDateTime :=
  dt.datetime.overflowingAddOffset (tz.fix dt.offset)

/-- The checked local projection (`naive_local`).  In the source the failure
case is a panic; it is surfaced here as `none`. -/
def DateTime.naiveLocal {O : Type} (tz : TimeZoneSpec O) (dt : DateTime O) :
    Option NaiveDateTime :=
  dt.datetime.checkedAddOffset (tz.fix dt.offset)

/-- The stored UTC view (`naive_utc`). -/
def DateTime.naiveUtc {O : Type} (dt : DateTime O) : NaiveDateTime :=
  dt.datetime

/-- The minimum representable zoned instant (`DateTime::<Utc>::MIN_UTC`). -/
def minUtc : DateTime Unit := ⟨⟨minSecs, 0⟩, ()⟩

/-- The maximum representable zoned instant (`DateTime::<Utc>::MAX_UTC`). -/
def maxUtc : DateTime Unit := ⟨⟨maxSecs, 999999999⟩, ()⟩

/-- The Unix epoch (`DateTime::<Utc>::UNIX_EPOCH`). -/
def unixEpoch : DateTime Unit := ⟨unixEpochNdt, ()⟩

/-- `map_local`: maps the (permissive) local datetime through a conversion,
re-resolves the result against the timezone reconstructed from the stored
offset, keeps it only when resolution yields exactly one instant, and
filters the result to the public representable range. -/
def mapLocal {O : Type} (tz : TimeZoneSpec O) (dt : DateTime O)
    (f : NaiveDateTime → Option NaiveDateTime) : Option (DateTime O) :=
  ((f (dt.overflowingNaiveLocal tz)).bind fun ndt =>
      (fromLocalDatetime tz dt.offset ndt).singleOpt).filter
    fun r => decide (NaiveDateTime.le minUtc.datetime r.datetime ∧
      NaiveDateTime.le r.datetime maxUtc.datetime)

/-- `Datelike::with_year` for the zoned instant. -/
def DateTime.withYear {O : Type} (tz : TimeZoneSpec O) (dt : DateTime O) (y : Int) :
    Option (DateTime O) :=
  mapLocal tz dt fun ndt => ndt.withYear y

/-- `Datelike::with_month` for the zoned instant. -/
def DateTime.withMonth {O : Type} (tz : TimeZoneSpec O) (dt : DateTime O) (m : Int) :
    Option (DateTime O) :=
  mapLocal tz dt fun ndt => ndt.withMonth m

/-- `Datelike::with_month0` for the zoned instant. -/
def DateTime.withMonth0 {O : Type} (tz : TimeZoneSpec O) (dt : DateTime O) (m0 : Int) :
    Option (DateTime O) :=
  mapLocal tz dt fun ndt => ndt.withMonth0 m0

/-- `Datelike::with_day` for the zoned instant. -/
def DateTime.withDay {O : Type} (tz : TimeZoneSpec O) (dt : DateTime O) (d : Int) :
    Option (DateTime O) :=
  mapLocal tz dt fun ndt => ndt.withDay d

/-- `Datelike::with_day0` for the zoned instant. -/
def DateTime.withDay0 {O : Type} (tz : TimeZoneSpec O) (dt : DateTime O) (d0 : Int) :
    Option (DateTime O) :=
  mapLocal tz dt fun ndt => ndt.withDay0 d0

/-- `Datelike::with_ordinal` for the zoned instant. -/
def DateTime.withOrdinal {O : Type} (tz : TimeZoneSpec O) (dt : DateTime O) (o : Int) :
    Option (DateTime O) :=
  mapLocal tz dt fun ndt => ndt.withOrdinal o

/-- `Datelike::with_ordinal0` for the zoned instant. -/
def DateTime.withOrdinal0 {O : Type} (tz : TimeZoneSpec O) (dt : DateTime O) (o0 : Int) :
    Option (DateTime O) :=
  mapLocal tz dt fun ndt => ndt.withOrdinal0 o0

/-- `Timelike::with_hour` for the zoned instant. -/
def DateTime.withHour {O : Type} (tz : TimeZoneSpec O) (dt : DateTime O) (h : Int) :
    Option (DateTime O) :=
  mapLocal tz dt fun ndt => ndt.withHour h

/-- `Timelike::with_minute` for the zoned instant. -/
def DateTime.withMinute {O : Type} (tz : TimeZoneSpec O) (dt : DateTime O) (mi : Int) :
    Option (DateTime O) :=
  mapLocal tz dt fun ndt => ndt.withMinute mi

/-- `Timelike::with_second` for the zoned instant. -/
def DateTime.withSecond {O : Type} (tz : TimeZoneSpec O) (dt : DateTime O) (s : Int) :
    Option (DateTime O) :=
  mapLocal tz dt fun ndt => ndt.withSecond s

/-- `Timelike::with_nanosecond` for the zoned instant. -/
def DateTime.withNanosecond {O : Type} (tz : TimeZoneSpec O) (dt : DateTime O) (n : Int) :
    Option (DateTime O) :=
  mapLocal tz dt fun ndt => ndt.withNanosecond n

/-- `checked_add_signed`: adds the duration to the stored UTC instant, then
reprojects the timezone's view of the new instant. -/
def DateTime.checkedAddSigned {O : Type} (tz : TimeZoneSpec O) (dt : DateTime O)
    (d : TimeDelta) : Option (DateTime O) :=
  (dt.datetime.checkedAddSigned d).map (fromUtcDatetime tz dt.offset)

/-- `checked_sub_signed`: subtracts the duration from the stored UTC
instant, then reprojects the timezone's view of the new instant. -/
def DateTime.checkedSubSigned {O : Type} (tz : TimeZoneSpec O) (dt : DateTime O)
    (d : TimeDelta) : Option (DateTime O) :=
  (dt.datetime.checkedSubSigned d).map (fromUtcDatetime tz dt.offset)

/-- `checked_add_months`: month arithmetic on the local civil time,
re-resolved against the timezone reconstructed from the stored offset.  The
panicking local projection of the source is surfaced as the `none` of
`naiveLocal`. -/
def DateTime.checkedAddMonths {O : Type} (tz : TimeZoneSpec O) (dt : DateTime O) (n : Int) :
    Option (DateTime O) :=
  ((dt.naiveLocal tz).bind fun l => l.checkedMonthsAdd n).bind fun l2 =>
    (fromLocalDatetime tz dt.offset l2).singleOpt

/-- `checked_sub_months`. -/
def DateTime.checkedSubMonths {O : Type} (tz : TimeZoneSpec O) (dt : DateTime O) (n : Int) :
    Option (DateTime O) :=
  ((dt.naiveLocal tz).bind fun l => l.checkedMonthsSub n).bind fun l2 =>
    (fromLocalDatetime tz dt.offset l2).singleOpt

/-- `checked_add_days`. -/
def DateTime.checkedAddDays {O : Type} (tz : TimeZoneSpec O) (dt : DateTime O) (n : Int) :
    Option (DateTime O) :=
  ((dt.naiveLocal tz).bind fun l => l.checkedDaysAdd n).bind fun l2 =>
    (fromLocalDatetime tz dt.offset l2).singleOpt

/-- `checked_sub_days`. -/
def DateTime.checkedSubDays {O : Type} (tz : TimeZoneSpec O) (dt : DateTime O) (n : Int) :
    Option (DateTime O) :=
  ((dt.naiveLocal tz).bind fun l => l.checkedDaysSub n).bind fun l2 =>
    (fromLocalDatetime tz dt.offset l2).singleOpt

/-- `signed_duration_since`, across possibly different offset types:
computed purely from the stored UTC instants. -/
def signedDurationSince {O1 O2 : Type} (a : DateTime O1) (b : DateTime O2) : TimeDelta :=
  a.datetime.signedDurationSince b.datetime

/-- The `Sub` operator between two zoned instants of the same timezone. -/
def DateTime.subDateTime {O : Type} (a b : DateTime O) : TimeDelta :=
  signedDurationSince a b

/-- `timestamp`: non-leap seconds since the Unix epoch. -/
def DateTime.timestamp {O : Type} (dt : DateTime O) : Int :=
  dt.datetime.secs

/-- `timestamp_subsec_nanos`: nanoseconds since the last second boundary
(may exceed 999999999 at a leap second). -/
def DateTime.timestampSubsecNanos {O : Type} (dt : DateTime O) : Int :=
  dt.datetime.frac

/-- `timestamp_millis`. -/
def DateTime.timestampMillis {O : Type} (dt : DateTime O) : Int :=
  dt.datetime.timestampMillis

/-- `timestamp_nanos`. -/
def DateTime.timestampNanos {O : Type} (dt : DateTime O) : Option Int :=
  dt.datetime.timestampNanos

/-- `DateTime::<Utc>::from_timestamp` (the UTC offset is the unit value). -/
def DateTime.fromTimestamp (secs nsecs : Int) : Option (DateTime Unit) :=
  (NaiveDateTime.fromTimestamp secs nsecs).map fun ndt => ⟨ndt, ()⟩

/-- `DateTime::<Utc>::from_timestamp_millis`. -/
def DateTime.fromTimestampMillis (ms : Int) : Option (DateTime Unit) :=
  (NaiveDateTime.fromTimestampMillis ms).map fun ndt => ⟨ndt, ()⟩

/-! Equality, ordering and hashing, translated from the trait
implementations in the source. -/

/-- `PartialEq<DateTime<Tz2>> for DateTime<Tz>`: structural equality of the
stored UTC instants only. -/
def DateTime.beq {O1 O2 : Type} (a : DateTime O1) (b : DateTime O2) : Bool :=
  NaiveDateTime.beq a.datetime b.datetime

/-- `PartialOrd<DateTime<Tz2>> for DateTime<Tz>`: comparison of the stored
UTC instants only (always defined, since the naive ordering is total). -/
def DateTime.partialCmp {O1 O2 : Type} (a : DateTime O1) (b : DateTime O2) :
    Option Ordering :=
  some (NaiveDateTime.cmp a.datetime b.datetime)

/-- `Ord for DateTime<Tz>`: total comparison of the stored UTC instants. -/
def DateTime.cmpSame {O : Type} (a b : DateTime O) : Ordering :=
  NaiveDateTime.cmp a.datetime b.datetime

/-- `Hash for DateTime<Tz>`: applies the naive collaborator's hashing to the
stored UTC instant only; `h` is the hasher's update function and `state` its
running state. -/
def DateTime.hashWith {O H : Type} (h : NaiveDateTime → H → H) (dt : DateTime O)
    (state : H) : H :=
  h dt.datetime state

/-! Field getters and `years_since`, translated from the source's
`Datelike`/`Timelike` implementations over the permissive local
projection. -/

/-- `Datelike::year` of the zoned instant: year of the permissive local
projection. -/
def DateTime.yearOf {O : Type} (tz : TimeZoneSpec O) (dt : DateTime O) : Int :=
  (civilFromDays (dt.overflowingNaiveLocal tz).days).1

/-- `Datelike::month` of the zoned instant. -/
def DateTime.monthOf {O : Type} (tz : TimeZoneSpec O) (dt : DateTime O) : Int :=
  (civilFromDays (dt.overflowingNaiveLocal tz).days).2.1

/-- `Datelike::day` of the zoned instant. -/
def DateTime.dayOf {O : Type} (tz : TimeZoneSpec O) (dt : DateTime O) : Int :=
  (civilFromDays (dt.overflowingNaiveLocal tz).days).2.2

/-- `time()`: the local time of day as `(second of day, sub-second part)`;
the naive time-plus-offset addition wraps around midnight. -/
def DateTime.timeOfDay {O : Type} (tz : TimeZoneSpec O) (dt : DateTime O) : Int × Int :=
  ((dt.datetime.sod + tz.fix dt.offset) % 86400, dt.datetime.frac)

/-- Strict lexicographic order on `(month, day, time-of-day)` triples, with
the time of day itself ordered by second then sub-second part. -/
def TripleLt (a b : Int × Int × (Int × Int)) : Prop :=
  a.1 < b.1 ∨ (a.1 = b.1 ∧ (a.2.1 < b.2.1 ∨ (a.2.1 = b.2.1 ∧
    (a.2.2.1 < b.2.2.1 ∨ (a.2.2.1 = b.2.2.1 ∧ a.2.2.2 < b.2.2.2)))))

instance (a b : Int × Int × (Int × Int)) : Decidable (TripleLt a b) := by
  unfold TripleLt; exact inferInstance

/-- `years_since`: elapsed whole years from `base` to `dt`; the year
difference is decremented when `dt`'s `(month, day, time)` triple is
lexicographically earlier than `base`'s, and a negative count reports
failure.  The `u32` result of the source is modelled as a nonnegative
integer. -/
def DateTime.yearsSince {O : Type} (tz : TimeZoneSpec O) (dt base : DateTime O) :
    Option Int :=
  let years := dt.yearOf tz - base.yearOf tz
  let earlier := decide (TripleLt (dt.monthOf tz, dt.dayOf tz, dt.timeOfDay tz)
    (base.monthOf tz, base.dayOf tz, base.timeOfDay tz))
  let years2 := years - (if earlier then 1 else 0)
  if 0 ≤ years2 then some years2 else Option.none

/-! Panicking operator variants, translated from the `Add`/`Sub` (and
assignment) trait implementations: each is the panicking version of a
checked operation, modelled with the panic surfaced as an `Except.error`
carrying the source's panic message. -/

/-- Panic message of `DateTime + TimeDelta` and `DateTime += TimeDelta`. -/
def msgAddTimeDelta : String := "`DateTime + TimeDelta` overflowed"

/-- Panic message of `DateTime - TimeDelta` and `DateTime -= TimeDelta`. -/
def msgSubTimeDelta : String := "`DateTime - TimeDelta` overflowed"

/-- Panic message of `DateTime + Months`. -/
def msgAddMonths : String := "`DateTime + Months` out of range"

/-- Panic message of `DateTime - Months`. -/
def msgSubMonths : String := "`DateTime - Months` out of range"

/-- Panic message of `DateTime + Days`. -/
def msgAddDays : String := "`DateTime + Days` out of range"

/-- Panic message of `DateTime - Days`. -/
def msgSubDays : String := "`DateTime - Days` out of range"

/-- The `Add<TimeDelta>` operator. -/
def DateTime.addTimeDelta {O : Type} (tz : TimeZoneSpec O) (dt : DateTime O)
    (d : TimeDelta) : Except String (DateTime O) :=
  match DateTime.checkedAddSigned tz dt d with
  | some r => Except.ok r
  | Option.none => Except.error msgAddTimeDelta

/-- The `Sub<TimeDelta>` operator. -/
def DateTime.subTimeDelta {O : Type} (tz : TimeZoneSpec O) (dt : DateTime O)
    (d : TimeDelta) : Except String (DateTime O) :=
  match DateTime.checkedSubSigned tz dt d with
  | some r => Except.ok r
  | Option.none => Except.error msgSubTimeDelta

/-- The `AddAssign<TimeDelta>` operator (the source re-implements the body
of `checked_add_signed` inline). -/
def DateTime.addAssignTimeDelta {O : Type} (tz : TimeZoneSpec O) (dt : DateTime O)
    (d : TimeDelta) : Except String (DateTime O) :=
  match dt.datetime.checkedAddSigned d with
  | some ndt => Except.ok (fromUtcDatetime tz dt.offset ndt)
  | Option.none => Except.error msgAddTimeDelta

/-- The `SubAssign<TimeDelta>` operator. -/
def DateTime.subAssignTimeDelta {O : Type} (tz : TimeZoneSpec O) (dt : DateTime O)
    (d : TimeDelta) : Except String (DateTime O) :=
  match dt.datetime.checkedSubSigned d with
  | some ndt => Except.ok (fromUtcDatetime tz dt.offset ndt)
  | Option.none => Except.error msgSubTimeDelta

/-- The `Add<Months>` operator. -/
def DateTime.addMonthsOp {O : Type} (tz : TimeZoneSpec O) (dt : DateTime O)
    (n : Int) : Except String (DateTime O) :=
  match DateTime.checkedAddMonths tz dt n with
  | some r => Except.ok r
  | Option.none => Except.error msgAddMonths

/-- The `Sub<Months>` operator. -/
def DateTime.subMonthsOp {O : Type} (tz : TimeZoneSpec O) (dt : DateTime O)
    (n : Int) : Except String (DateTime O) :=
  match DateTime.checkedSubMonths tz dt n with
  | some r => Except.ok r
  | Option.none => Except.error msgSubMonths

/-- The `Add<Days>` operator. -/
def DateTime.addDaysOp {O : Type} (tz : TimeZoneSpec O) (dt : DateTime O)
    (n : Int) : Except String (DateTime O) :=
  match DateTime.checkedAddDays tz dt n with
  | some r => Except.ok r
  | Option.none => Except.error msgAddDays

/-- The `Sub<Days>` operator. -/
def DateTime.subDaysOp {O : Type} (tz : TimeZoneSpec O) (dt : DateTime O)
    (n : Int) : Except String (DateTime O) :=
  match DateTime.checkedSubDays tz dt n with
  | some r => Except.ok r
  | Option.none => Except.error msgSubDays

/-! Parsing entry points.  The token-sequence parse engine is an external
collaborator; the entry points below are translated from the source with the
engine supplied as a function argument. -/

/-- Modelled from the spec: the error kinds of the parse collaborator. -/
inductive ParseErrorKind where
  | outOfRange
  | impossible
  | notEnough
  | invalid
  | tooShort
  | tooLong
  | badFormat
  deriving DecidableEq

/-- Modelled from the spec: the intermediate parsed-field record, reduced to
what the zoned-instant resolution consumes: the parsed naive local datetime
and the parsed UTC offset, each possibly absent. -/
structure Parsed where
  naive : Option NaiveDateTime
  offset : Option Int
  deriving DecidableEq

/-- Modelled from the spec: resolution of parsed fields to a fixed-offset
zoned instant; a timezone must be present in the input, and the local
datetime is converted to UTC with a range check. -/
def Parsed.toDatetime (p : Parsed) : Except ParseErrorKind (DateTime Int) :=
  match p.offset with
  | Option.none => Except.error ParseErrorKind.notEnough
  | some off =>
    match p.naive with
    | Option.none => Except.error ParseErrorKind.notEnough
    | some l =>
      match l.checkedSubOffset off with
      | some utc => Except.ok ⟨utc, off⟩
      | Option.none => Except.error ParseErrorKind.outOfRange

/-- `parse_from_rfc3339`: runs the RFC 3339 engine, rejects non-empty
trailing input with the too-long error, then resolves the parsed fields. -/
def DateTime.parseFromRfc3339 (engine : String → Except ParseErrorKind (Parsed × String))
    (s : String) : Except ParseErrorKind (DateTime Int) :=
  match engine s with
  | Except.error e => Except.error e
  | Except.ok (p, rem) =>
    if rem ≠ "" then Except.error ParseErrorKind.tooLong else p.toDatetime

/-- `parse_from_str`: runs the full-consumption custom-format engine, then
resolves the parsed fields. -/
def DateTime.parseFromStr (engine : String → String → Except ParseErrorKind Parsed)
    (s fmt : String) : Except ParseErrorKind (DateTime Int) :=
  match engine s fmt with
  | Except.error e => Except.error e
  | Except.ok p => p.toDatetime

/-- `parse_and_remainder`: runs the remainder-returning custom-format
engine, resolves the parsed fields, and returns the unconsumed remainder
alongside the value. -/
def DateTime.parseAndRemainder (engine : String → String → Except ParseErrorKind (Parsed × String))
    (s fmt : String) : Except ParseErrorKind (DateTime Int × String) :=
  match engine s fmt with
  | Except.error e => Except.error e
  | Except.ok (p, rem) =>
    match p.toDatetime with
    | Except.ok d => Except.ok (d, rem)
    | Except.error e => Except.error e

/-! Concrete timezone capabilities, used to instantiate the generic
theorems: UTC, an arbitrary fixed offset, and a single-transition timezone
with a spring-forward gap (the third concrete variant required by the
spec). -/

/-- The UTC capability: zero shift, unambiguous resolution, unit offset. -/
def utcTz : TimeZoneSpec Unit :=
  ⟨fun _ => 0, fun _ _ => (), fun _ _ => LocalResult.single ()⟩

/-- The fixed-offset capability: the offset value itself is the timezone. -/
def fixedTz : TimeZoneSpec Int :=
  ⟨fun o => o, fun o _ => o, fun o _ => LocalResult.single o⟩

/-- A transition-table-backed capability with a single transition at instant
1000000: offset 0 before, 3600 after, so local times in the gap
[1000000, 1003600) do not exist. -/
def stepTz : TimeZoneSpec Int :=
  ⟨fun o => o,
   fun _ ndt => if ndt.secs < 1000000 then 0 else 3600,
   fun _ l =>
     if l.secs < 1000000 then LocalResult.single 0
     else if l.secs < 1003600 then LocalResult.none
     else LocalResult.single 3600⟩

/-- Modelled from the spec: `FixedOffset::west`, building a fixed offset
from seconds west of UTC (stored as seconds east); fails beyond one day. -/
def fixedOffsetWest (secs : Int) : Option Int :=
  if -86400 < secs ∧ secs < 86400 then some (-secs) else Option.none

/-- Modelled from the spec: the naive collaborator's `Default` origin value,
the Unix epoch. -/
def defaultNaive : NaiveDateTime := ⟨0, 0⟩

/-- `Default for DateTime<Utc>`: the UTC view of the naive default. -/
def defaultUtcDt : DateTime Unit :=
  fromUtcDatetime utcTz () defaultNaive

/-- `Default for DateTime<FixedOffset>`: the `west(0)` view of the naive
default (the source's `unwrap` is modelled by defaulting). -/
def defaultFixedDt : DateTime Int :=
  fromUtcDatetime fixedTz ((fixedOffsetWest 0).getD 0) defaultNaive

/-! Property shapes used to state the re-resolution claim. -/

/-- The modified local datetime is re-resolved: a failed modification, and a
resolution yielding zero or two candidate instants, both force a `none`
result. -/
def ReResolved {O : Type} (tz : TimeZoneSpec O) (dt : DateTime O)
    (modified : Option NaiveDateTime) (result : Option (DateTime O)) : Prop :=
  (modified = Option.none → result = Option.none) ∧
  ∀ ndt, modified = some ndt →
    (fromLocalDatetime tz dt.offset ndt).singleOpt = Option.none →
    result = Option.none

/-- Every produced value lies within the public representable range, in the
instant ordering bounded by `MIN_UTC` and `MAX_UTC`. -/
def InPublicRange {O : Type} (result : Option (DateTime O)) : Prop :=
  ∀ r, result = some r →
    NaiveDateTime.le minUtc.datetime r.datetime ∧
    NaiveDateTime.le r.datetime maxUtc.datetime

/-- Every produced value has its whole-second count within the representable
range (the weaker guarantee actually provided by the calendar-arithmetic
operations, which lack the final range filter). -/
def InSecsRange {O : Type} (result : Option (DateTime O)) : Prop :=
  ∀ r, result = some r → minSecs ≤ r.datetime.secs ∧ r.datetime.secs ≤ maxSecs

/-- A duration value lies within the duration type's representable range. -/
def durationInRange (d : Int) : Prop :=
  -timeDeltaMaxNanos ≤ d ∧ d ≤ timeDeltaMaxNanos

/-- Whether adding a duration to an instant stays within the representable
range (the success condition of checked duration arithmetic; it does not
mention the timezone). -/
def NaiveDateTime.AddInRange (t : NaiveDateTime) (d : TimeDelta) : Prop :=
  minSecs ≤ (t.toNanos + d) / 1000000000 ∧
    (t.toNanos + d) / 1000000000 ≤ maxSecs

/-! Helper lemmas. -/

theorem ndt_beq_iff (a b : NaiveDateTime) : NaiveDateTime.beq a b = true ↔ a = b := by
  cases a with
  | mk as af =>
    cases b with
    | mk bs bf =>
      simp [NaiveDateTime.beq, NaiveDateTime.mk.injEq, Bool.and_eq_true, beq_iff_eq]

theorem fromLocal_singleOpt_range {O : Type} (tz : TimeZoneSpec O) (seed : O)
    (l : NaiveDateTime) (r : DateTime O) :
    (fromLocalDatetime tz seed l).singleOpt = some r →
    minSecs ≤ r.datetime.secs ∧ r.datetime.secs ≤ maxSecs := by
  unfold fromLocalDatetime LocalResult.andThen
  cases tz.offsetFromLocal seed l with
  | none => simp [LocalResult.singleOpt]
  | single off =>
    cases hc : (l.checkedSubOffset (tz.fix off)).map (fun utc => (⟨utc, off⟩ : DateTime O)) with
    | none => simp [hc, LocalResult.singleOpt]
    | some r0 =>
      simp only [hc, LocalResult.singleOpt]
      intro h
      cases h
      rcases Option.map_eq_some'.mp hc with ⟨utc, hutc, hr0⟩
      unfold NaiveDateTime.checkedSubOffset NaiveDateTime.rangeCheck at hutc
      split at hutc
      · cases hutc
        cases hr0
        assumption
      · cases hutc
  | ambiguous x y =>
    cases hx : (l.checkedSubOffset (tz.fix x)).map (fun utc => (⟨utc, x⟩ : DateTime O)) with
    | none => simp [hx, LocalResult.singleOpt]
    | some rx =>
      cases hy : (l.checkedSubOffset (tz.fix y)).map (fun utc => (⟨utc, y⟩ : DateTime O)) with
      | none => simp [hx, hy, LocalResult.singleOpt]
      | some ry => simp [hx, hy, LocalResult.singleOpt]

theorem ndt_checkedAddSigned_eq (t : NaiveDateTime) (d : TimeDelta) :
    t.checkedAddSigned d =
      if minSecs ≤ (t.toNanos + d) / 1000000000 ∧
          (t.toNanos + d) / 1000000000 ≤ maxSecs then
        some ⟨(t.toNanos + d) / 1000000000, (t.toNanos + d) % 1000000000⟩
      else Option.none := rfl

theorem mapLocal_c2 {O : Type} (tz : TimeZoneSpec O) (dt : DateTime O)
    (f : NaiveDateTime → Option NaiveDateTime) :
    ReResolved tz dt (f (dt.overflowingNaiveLocal tz)) (mapLocal tz dt f) ∧
    InPublicRange (mapLocal tz dt f) := by
  refine ⟨⟨?_, ?_⟩, ?_⟩
  · intro h
    unfold mapLocal
    rw [h]
    rfl
  · intro ndt h hres
    unfold mapLocal
    rw [h]
    simp [Option.bind, hres, Option.filter]
  · intro r h
    unfold mapLocal at h
    rcases hf : f (dt.overflowingNaiveLocal tz) with _ | ndt0
    · rw [hf] at h
      simp [Option.bind, Option.filter] at h
    · rw [hf] at h
      rcases hres : (fromLocalDatetime tz dt.offset ndt0).singleOpt with _ | r0
      · simp [Option.bind, hres, Option.filter] at h
      · simp only [Option.bind, hres, Option.filter] at h
        split at h
        · rename_i hc
          cases h
          exact of_decide_eq_true hc
        · cases h

theorem calShape_c2 {O : Type} (tz : TimeZoneSpec O) (dt : DateTime O)
    (modified : Option NaiveDateTime) :
    ReResolved tz dt modified
      (modified.bind fun l2 => (fromLocalDatetime tz dt.offset l2).singleOpt) ∧
    InSecsRange (modified.bind fun l2 => (fromLocalDatetime tz dt.offset l2).singleOpt) := by
  refine ⟨⟨?_, ?_⟩, ?_⟩
  · intro h
    rw [h]
    rfl
  · intro ndt h hres
    rw [h]
    simpa [Option.bind] using hres
  · intro r h
    rcases modified with _ | l2
    · cases h
    · simp only [Option.bind] at h
      exact fromLocal_singleOpt_range tz dt.offset l2 r h

/-! Claim theorems. -/

/-- C1: for any two `DateTime` values, possibly over different timezone
types, equality holds exactly when the stored UTC instants are equal,
`partial_cmp` is the comparison of the stored UTC instants, hashing applies
the naive hash to the stored UTC instant alone, and replacing either offset
changes none of the three. -/
theorem c1_eq_ord_hash_instant_only {O1 O2 H : Type}
    (a : DateTime O1) (b : DateTime O2) (h : NaiveDateTime → H → H) (s : H)
    (o1 : O1) (o2 : O2) :
    (DateTime.beq a b = true ↔ a.datetime = b.datetime) ∧
    DateTime.partialCmp a b = some (NaiveDateTime.cmp a.datetime b.datetime) ∧
    DateTime.hashWith h a s = h a.datetime s ∧
    DateTime.beq (⟨a.datetime, o1⟩ : DateTime O1) b = DateTime.beq a b ∧
    DateTime.partialCmp (⟨a.datetime, o1⟩ : DateTime O1) (⟨b.datetime, o2⟩ : DateTime O2) =
      DateTime.partialCmp a b ∧
    DateTime.hashWith h (⟨a.datetime, o1⟩ : DateTime O1) s = DateTime.hashWith h a s := by
  exact ⟨ndt_beq_iff a.datetime b.datetime, rfl, rfl, rfl, rfl, rfl⟩

/-- C10: the `Default` value of `DateTime<Utc>` is `UNIX_EPOCH`, and the
`Default` value of `DateTime<FixedOffset>` is the same instant with a fixed
offset of exactly zero seconds, so both compare equal to `UNIX_EPOCH`. -/
theorem c10_default_unix_epoch :
    defaultUtcDt = unixEpoch ∧
    fixedOffsetWest 0 = some 0 ∧
    defaultFixedDt.datetime = unixEpoch.datetime ∧
    defaultFixedDt.offset = 0 ∧
    DateTime.beq defaultUtcDt unixEpoch = true ∧
    DateTime.beq defaultFixedDt unixEpoch = true := by
  refine ⟨rfl, by decide, by decide, by decide, by decide, by decide⟩

/-- C7: each panicking operator (`+`/`-` with a duration, months or days,
and the duration assignment variants) returns exactly the value of its
checked counterpart when that returns `Some`, panics exactly when it returns
`None`, the assignment variants agree with the plain operators, and the six
panic messages are pairwise distinct and name the operation. -/
theorem c7_panicking_refines_checked {O : Type} (tz : TimeZoneSpec O) (dt : DateTime O)
    (d : TimeDelta) (n : Int) (r : DateTime O) (m : String) :
    (DateTime.addTimeDelta tz dt d = Except.ok r ↔
      DateTime.checkedAddSigned tz dt d = some r) ∧
    (DateTime.addTimeDelta tz dt d = Except.error m ↔
      DateTime.checkedAddSigned tz dt d = Option.none ∧ m = msgAddTimeDelta) ∧
    (DateTime.subTimeDelta tz dt d = Except.ok r ↔
      DateTime.checkedSubSigned tz dt d = some r) ∧
    (DateTime.subTimeDelta tz dt d = Except.error m ↔
      DateTime.checkedSubSigned tz dt d = Option.none ∧ m = msgSubTimeDelta) ∧
    (DateTime.addMonthsOp tz dt n = Except.ok r ↔
      DateTime.checkedAddMonths tz dt n = some r) ∧
    (DateTime.addMonthsOp tz dt n = Except.error m ↔
      DateTime.checkedAddMonths tz dt n = Option.none ∧ m = msgAddMonths) ∧
    (DateTime.subMonthsOp tz dt n = Except.ok r ↔
      DateTime.checkedSubMonths tz dt n = some r) ∧
    (DateTime.subMonthsOp tz dt n = Except.error m ↔
      DateTime.checkedSubMonths tz dt n = Option.none ∧ m = msgSubMonths) ∧
    (DateTime.addDaysOp tz dt n = Except.ok r ↔
      DateTime.checkedAddDays tz dt n = some r) ∧
    (DateTime.addDaysOp tz dt n = Except.error m ↔
      DateTime.checkedAddDays tz dt n = Option.none ∧ m = msgAddDays) ∧
    (DateTime.subDaysOp tz dt n = Except.ok r ↔
      DateTime.checkedSubDays tz dt n = some r) ∧
    (DateTime.subDaysOp tz dt n = Except.error m ↔
      DateTime.checkedSubDays tz dt n = Option.none ∧ m = msgSubDays) ∧
    DateTime.addAssignTimeDelta tz dt d = DateTime.addTimeDelta tz dt d ∧
    DateTime.subAssignTimeDelta tz dt d = DateTime.subTimeDelta tz dt d ∧
    List.Pairwise (fun a b => a ≠ b)
      [msgAddTimeDelta, msgSubTimeDelta, msgAddMonths, msgSubMonths, msgAddDays, msgSubDays] := by
  refine ⟨?_, ?_, ?_, ?_, ?_, ?_, ?_, ?_, ?_, ?_, ?_, ?_, ?_, ?_, by decide⟩
  · unfold DateTime.addTimeDelta
    cases DateTime.checkedAddSigned tz dt d <;> simp
  · unfold DateTime.addTimeDelta
    cases DateTime.checkedAddSigned tz dt d <;> simp [eq_comm]
  · unfold DateTime.subTimeDelta
    cases DateTime.checkedSubSigned tz dt d <;> simp
  · unfold DateTime.subTimeDelta
    cases DateTime.checkedSubSigned tz dt d <;> simp [eq_comm]
  · unfold DateTime.addMonthsOp
    cases DateTime.checkedAddMonths tz dt n <;> simp
  · unfold DateTime.addMonthsOp
    cases DateTime.checkedAddMonths tz dt n <;> simp [eq_comm]
  · unfold DateTime.subMonthsOp
    cases DateTime.checkedSubMonths tz dt n <;> simp
  · unfold DateTime.subMonthsOp
    cases DateTime.checkedSubMonths tz dt n <;> simp [eq_comm]
  · unfold DateTime.addDaysOp
    cases DateTime.checkedAddDays tz dt n <;> simp
  · unfold DateTime.addDaysOp
    cases DateTime.checkedAddDays tz dt n <;> simp [eq_comm]
  · unfold DateTime.subDaysOp
    cases DateTime.checkedSubDays tz dt n <;> simp
  · unfold DateTime.subDaysOp
    cases DateTime.checkedSubDays tz dt n <;> simp [eq_comm]
  · unfold DateTime.addAssignTimeDelta DateTime.addTimeDelta DateTime.checkedAddSigned
    cases dt.datetime.checkedAddSigned d <;> rfl
  · unfold DateTime.subAssignTimeDelta DateTime.subTimeDelta DateTime.checkedSubSigned
    cases hs : dt.datetime.checkedSubSigned d <;> simp [hs, Option.map]

/-- C2 counterexample: `checked_add_days` lacks the final range filter of
the field setters.  Starting from the valid instant one day before the last
representable second, carrying an encoded leap second, adding one calendar
day resolves (in UTC) to a single instant that exceeds `MAX_UTC` in the
instant ordering, yet the operation returns it instead of `None`. -/
theorem c2_counterexample :
    NaiveDateTime.Valid ⟨8210266790399, 1500000000⟩ ∧
    DateTime.checkedAddDays utcTz ⟨⟨8210266790399, 1500000000⟩, ()⟩ 1 =
      some ⟨⟨8210266876799, 1500000000⟩, ()⟩ ∧
    NaiveDateTime.lt maxUtc.datetime ⟨8210266876799, 1500000000⟩ := by
  exact ⟨by decide, by decide, by decide⟩

/-- C2 (amended): every local-field setter and every checked calendar-day or
calendar-month operation re-resolves the modified local civil datetime
against the timezone capability reconstructed from the original offset and
returns `None` whenever that resolution yields zero or two candidate
instants (or the modification itself fails).  The field setters additionally
return `None` whenever the result lies outside the public range bounded by
`MIN_UTC` and `MAX_UTC`; the four checked calendar operations guarantee only
that the whole-second count of the result is within the representable range
(they omit the final range filter, observable at a leap second on the last
representable second). -/
theorem c2_amended_reresolution {O : Type} (tz : TimeZoneSpec O) (dt : DateTime O)
    (y m m0 d d0 o o0 h mi s n nmo nda : Int) :
    (ReResolved tz dt ((dt.overflowingNaiveLocal tz).withYear y) (DateTime.withYear tz dt y) ∧
      InPublicRange (DateTime.withYear tz dt y)) ∧
    (ReResolved tz dt ((dt.overflowingNaiveLocal tz).withMonth m) (DateTime.withMonth tz dt m) ∧
      InPublicRange (DateTime.withMonth tz dt m)) ∧
    (ReResolved tz dt ((dt.overflowingNaiveLocal tz).withMonth0 m0)
        (DateTime.withMonth0 tz dt m0) ∧
      InPublicRange (DateTime.withMonth0 tz dt m0)) ∧
    (ReResolved tz dt ((dt.overflowingNaiveLocal tz).withDay d) (DateTime.withDay tz dt d) ∧
      InPublicRange (DateTime.withDay tz dt d)) ∧
    (ReResolved tz dt ((dt.overflowingNaiveLocal tz).withDay0 d0) (DateTime.withDay0 tz dt d0) ∧
      InPublicRange (DateTime.withDay0 tz dt d0)) ∧
    (ReResolved tz dt ((dt.overflowingNaiveLocal tz).withOrdinal o)
        (DateTime.withOrdinal tz dt o) ∧
      InPublicRange (DateTime.withOrdinal tz dt o)) ∧
    (ReResolved tz dt ((dt.overflowingNaiveLocal tz).withOrdinal0 o0)
        (DateTime.withOrdinal0 tz dt o0) ∧
      InPublicRange (DateTime.withOrdinal0 tz dt o0)) ∧
    (ReResolved tz dt ((dt.overflowingNaiveLocal tz).withHour h) (DateTime.withHour tz dt h) ∧
      InPublicRange (DateTime.withHour tz dt h)) ∧
    (ReResolved tz dt ((dt.overflowingNaiveLocal tz).withMinute mi)
        (DateTime.withMinute tz dt mi) ∧
      InPublicRange (DateTime.withMinute tz dt mi)) ∧
    (ReResolved tz dt ((dt.overflowingNaiveLocal tz).withSecond s)
        (DateTime.withSecond tz dt s) ∧
      InPublicRange (DateTime.withSecond tz dt s)) ∧
    (ReResolved tz dt ((dt.overflowingNaiveLocal tz).withNanosecond n)
        (DateTime.withNanosecond tz dt n) ∧
      InPublicRange (DateTime.withNanosecond tz dt n)) ∧
    (ReResolved tz dt ((dt.naiveLocal tz).bind fun l => l.checkedMonthsAdd nmo)
        (DateTime.checkedAddMonths tz dt nmo) ∧
      InSecsRange (DateTime.checkedAddMonths tz dt nmo)) ∧
    (ReResolved tz dt ((dt.naiveLocal tz).bind fun l => l.checkedMonthsSub nmo)
        (DateTime.checkedSubMonths tz dt nmo) ∧
      InSecsRange (DateTime.checkedSubMonths tz dt nmo)) ∧
    (ReResolved tz dt ((dt.naiveLocal tz).bind fun l => l.checkedDaysAdd nda)
        (DateTime.checkedAddDays tz dt nda) ∧
      InSecsRange (DateTime.checkedAddDays tz dt nda)) ∧
    (ReResolved tz dt ((dt.naiveLocal tz).bind fun l => l.checkedDaysSub nda)
        (DateTime.checkedSubDays tz dt nda) ∧
      InSecsRange (DateTime.checkedSubDays tz dt nda)) := by
  exact ⟨mapLocal_c2 tz dt (fun ndt => ndt.withYear y),
    mapLocal_c2 tz dt (fun ndt => ndt.withMonth m),
    mapLocal_c2 tz dt (fun ndt => ndt.withMonth0 m0),
    mapLocal_c2 tz dt (fun ndt => ndt.withDay d),
    mapLocal_c2 tz dt (fun ndt => ndt.withDay0 d0),
    mapLocal_c2 tz dt (fun ndt => ndt.withOrdinal o),
    mapLocal_c2 tz dt (fun ndt => ndt.withOrdinal0 o0),
    mapLocal_c2 tz dt (fun ndt => ndt.withHour h),
    mapLocal_c2 tz dt (fun ndt => ndt.withMinute mi),
    mapLocal_c2 tz dt (fun ndt => ndt.withSecond s),
    mapLocal_c2 tz dt (fun ndt => ndt.withNanosecond n),
    calShape_c2 tz dt ((dt.naiveLocal tz).bind fun l => l.checkedMonthsAdd nmo),
    calShape_c2 tz dt ((dt.naiveLocal tz).bind fun l => l.checkedMonthsSub nmo),
    calShape_c2 tz dt ((dt.naiveLocal tz).bind fun l => l.checkedDaysAdd nda),
    calShape_c2 tz dt ((dt.naiveLocal tz).bind fun l => l.checkedDaysSub nda)⟩

/-- C2 witness: in the single-transition timezone, setting the hour so that
the modified local time falls in the spring-forward gap resolves to zero
candidates, and the amended theorem forces the setter to report `None`. -/
theorem c2_amended_witness :
    (((⟨⟨995000, 0⟩, 0⟩ : DateTime Int).overflowingNaiveLocal stepTz).withHour 14 =
      some ⟨1002200, 0⟩) ∧
    (fromLocalDatetime stepTz (0 : Int) ⟨1002200, 0⟩).singleOpt = Option.none ∧
    DateTime.withHour stepTz ⟨⟨995000, 0⟩, 0⟩ 14 = Option.none := by
  refine ⟨by decide, by decide, ?_⟩
  obtain ⟨_, _, _, _, _, _, _, ⟨hre, _⟩, _⟩ :=
    c2_amended_reresolution stepTz (⟨⟨995000, 0⟩, 0⟩ : DateTime Int)
      0 0 0 0 0 0 0 14 0 0 0 0 0
  exact hre.2 ⟨1002200, 0⟩ (by decide) (by decide)

/-- C3 counterexample: duration arithmetic reprojects the timezone's offset
at the new instant; in a timezone with a transition the offset of the result
differs from the offset of the operand, so the offset is not kept. -/
theorem c3_counterexample :
    NaiveDateTime.Valid ⟨999990, 0⟩ ∧
    DateTime.checkedAddSigned stepTz ⟨⟨999990, 0⟩, 0⟩ 20000000000 =
      some ⟨⟨1000010, 0⟩, 3600⟩ ∧
    decide ((3600 : Int) = (0 : Int)) = false := by
  exact ⟨by decide, by decide, by decide⟩

/-- C3 (amended): `checked_add_signed` and `checked_sub_signed` operate
purely on the stored UTC instant: they succeed exactly when the naive
addition (respectively subtraction) stays within the representable range — a
condition independent of the timezone, so they never fail due to DST
resolution — and on success the result's UTC field is the naive sum while
its offset is re-derived from the timezone capability (reconstructed from
the original offset) at the new instant; for UTC and fixed-offset timezones
this preserves the offset. -/
theorem c3_amended_duration_arith {O : Type} (tz : TimeZoneSpec O) (dt : DateTime O)
    (d : TimeDelta) :
    ((DateTime.checkedAddSigned tz dt d).isSome ↔ dt.datetime.AddInRange d) ∧
    (∀ r, DateTime.checkedAddSigned tz dt d = some r →
      dt.datetime.checkedAddSigned d = some r.datetime ∧
      r.offset = tz.offsetFromUtc dt.offset r.datetime) ∧
    ((DateTime.checkedSubSigned tz dt d).isSome ↔ dt.datetime.AddInRange (-d)) ∧
    (∀ r, DateTime.checkedSubSigned tz dt d = some r →
      dt.datetime.checkedAddSigned (-d) = some r.datetime ∧
      r.offset = tz.offsetFromUtc dt.offset r.datetime) ∧
    (∀ o2 : O, (DateTime.checkedAddSigned tz (⟨dt.datetime, o2⟩ : DateTime O) d).isSome =
      (DateTime.checkedAddSigned tz dt d).isSome) := by
  refine ⟨?_, ?_, ?_, ?_, fun o2 => ?_⟩
  · unfold DateTime.checkedAddSigned NaiveDateTime.AddInRange
    rw [ndt_checkedAddSigned_eq]
    by_cases hc : minSecs ≤ (dt.datetime.toNanos + d) / 1000000000 ∧
        (dt.datetime.toNanos + d) / 1000000000 ≤ maxSecs <;>
      simp [hc, Option.map]
  · intro r hr
    unfold DateTime.checkedAddSigned at hr
    rcases Option.map_eq_some'.mp hr with ⟨ndt, hndt, hrr⟩
    subst hrr
    exact ⟨hndt, rfl⟩
  · unfold DateTime.checkedSubSigned NaiveDateTime.checkedSubSigned NaiveDateTime.AddInRange
    rw [ndt_checkedAddSigned_eq]
    by_cases hc : minSecs ≤ (dt.datetime.toNanos + -d) / 1000000000 ∧
        (dt.datetime.toNanos + -d) / 1000000000 ≤ maxSecs <;>
      simp [hc, Option.map]
  · intro r hr
    unfold DateTime.checkedSubSigned NaiveDateTime.checkedSubSigned at hr
    rcases Option.map_eq_some'.mp hr with ⟨ndt, hndt, hrr⟩
    subst hrr
    exact ⟨hndt, rfl⟩
  · unfold DateTime.checkedAddSigned
    rw [ndt_checkedAddSigned_eq]
    by_cases hc : minSecs ≤ (dt.datetime.toNanos + d) / 1000000000 ∧
        (dt.datetime.toNanos + d) / 1000000000 ≤ maxSecs <;>
      simp [hc, Option.map]

/-- C3 witness: concrete instantiation of the amended theorem at UTC. -/
theorem c3_witness :
    DateTime.checkedAddSigned utcTz unixEpoch 5000000000 = some ⟨⟨5, 0⟩, ()⟩ ∧
    unixEpoch.datetime.checkedAddSigned 5000000000 = some ⟨5, 0⟩ :=
  ⟨by decide,
   ((c3_amended_duration_arith utcTz unixEpoch 5000000000).2.1 ⟨⟨5, 0⟩, ()⟩ (by decide)).1⟩

/-- C4: construction from a second-plus-nanosecond timestamp round-trips
exactly with the `timestamp`/`timestamp_subsec_nanos` accessors on every
valid `DateTime<Utc>`, and the millisecond constructor round-trips likewise
with `timestamp_millis`: reading the accessor after constructing returns the
unit count, and constructing from the accessor reproduces every instant
representable at that unit's precision. -/
theorem c4_timestamp_roundtrip :
    (∀ dt : DateTime Unit, dt.datetime.Valid →
      DateTime.fromTimestamp (DateTime.timestamp dt) (DateTime.timestampSubsecNanos dt) =
        some dt) ∧
    (∀ s n : Int, ∀ dt : DateTime Unit, DateTime.fromTimestamp s n = some dt →
      DateTime.timestamp dt = s ∧ DateTime.timestampSubsecNanos dt = n) ∧
    (∀ ms : Int, ∀ dt : DateTime Unit, DateTime.fromTimestampMillis ms = some dt →
      DateTime.timestampMillis dt = ms) ∧
    (∀ ms : Int, ∀ dt : DateTime Unit, DateTime.fromTimestampMillis ms = some dt →
      DateTime.fromTimestampMillis (DateTime.timestampMillis dt) = some dt) := by
  have key3 : ∀ ms : Int, ∀ dt : DateTime Unit, DateTime.fromTimestampMillis ms = some dt →
      DateTime.timestampMillis dt = ms := by
    intro ms dt h
    unfold DateTime.fromTimestampMillis NaiveDateTime.fromTimestampMillis
      NaiveDateTime.fromTimestamp at h
    split at h
    · simp only [Option.map] at h
      cases h
      unfold DateTime.timestampMillis NaiveDateTime.timestampMillis
      simp only []
      omega
    · simp only [Option.map] at h
      cases h
  refine ⟨?_, ?_, key3, ?_⟩
  · intro dt hV
    unfold NaiveDateTime.Valid at hV
    obtain ⟨ha, hb, hc, hd, he⟩ := hV
    unfold DateTime.fromTimestamp NaiveDateTime.fromTimestamp DateTime.timestamp
      DateTime.timestampSubsecNanos
    have hcond : (minSecs ≤ dt.datetime.secs ∧ dt.datetime.secs ≤ maxSecs) ∧
        0 ≤ dt.datetime.frac ∧
        (dt.datetime.frac < 1000000000 ∨
          (dt.datetime.frac < 2000000000 ∧ dt.datetime.secs % 60 = 59)) := by
      refine ⟨⟨ha, hb⟩, hc, ?_⟩
      by_cases hl : dt.datetime.frac < 1000000000
      · exact Or.inl hl
      · exact Or.inr ⟨hd, he (by omega)⟩
    rw [if_pos hcond]
    rfl
  · intro s n dt h
    unfold DateTime.fromTimestamp NaiveDateTime.fromTimestamp at h
    split at h
    · simp only [Option.map] at h
      cases h
      exact ⟨rfl, rfl⟩
    · simp only [Option.map] at h
      cases h
  · intro ms dt h
    rw [key3 ms dt h]
    exact h

/-- C4 witness: the round trip at a concrete valid instant. -/
theorem c4_witness :
    NaiveDateTime.Valid ⟨1431648000, 0⟩ ∧
    DateTime.fromTimestamp 1431648000 0 = some ⟨⟨1431648000, 0⟩, ()⟩ :=
  ⟨by decide, c4_timestamp_roundtrip.1 ⟨⟨1431648000, 0⟩, ()⟩ (by decide)⟩

/-- C5: on every valid instant, `timestamp_nanos` succeeds exactly when the
instant lies within [1677-09-21T00:12:43.145224192Z,
2262-04-11T23:47:16.854775807Z] (in epoch seconds: -9223372037 with
sub-second 145224192, and 9223372036 with sub-second 854775807); the
boundary instants map to `i64::MIN` and `i64::MAX`, and one nanosecond
outside either bound the accessor reports failure. -/
theorem c5_timestamp_nanos_range {O : Type} (dt : DateTime O) (hV : dt.datetime.Valid) :
    ((DateTime.timestampNanos dt).isSome = true ↔
      (NaiveDateTime.le ⟨-9223372037, 145224192⟩ dt.datetime ∧
       NaiveDateTime.le dt.datetime ⟨9223372036, 854775807⟩)) ∧
    DateTime.timestampNanos (⟨⟨-9223372037, 145224192⟩, ()⟩ : DateTime Unit) = some i64Min ∧
    DateTime.timestampNanos (⟨⟨9223372036, 854775807⟩, ()⟩ : DateTime Unit) = some i64Max ∧
    DateTime.timestampNanos (⟨⟨-9223372037, 145224191⟩, ()⟩ : DateTime Unit) = Option.none ∧
    DateTime.timestampNanos (⟨⟨9223372036, 854775808⟩, ()⟩ : DateTime Unit) = Option.none := by
  refine ⟨?_, by decide, by decide, by decide, by decide⟩
  unfold NaiveDateTime.Valid at hV
  obtain ⟨ha, hb, hc, hd, he⟩ := hV
  simp only [minSecs, maxSecs] at ha hb
  have hle1 : NaiveDateTime.le ⟨-9223372037, 145224192⟩ dt.datetime ↔
      (-9223372037 < dt.datetime.secs ∨
        (-9223372037 = dt.datetime.secs ∧ 145224192 ≤ dt.datetime.frac)) := Iff.rfl
  have hle2 : NaiveDateTime.le dt.datetime ⟨9223372036, 854775807⟩ ↔
      (dt.datetime.secs < 9223372036 ∨
        (dt.datetime.secs = 9223372036 ∧ dt.datetime.frac ≤ 854775807)) := Iff.rfl
  have main : (i64Min ≤ dt.datetime.toNanos ∧ dt.datetime.toNanos ≤ i64Max) ↔
      ((-9223372037 < dt.datetime.secs ∨
          (-9223372037 = dt.datetime.secs ∧ 145224192 ≤ dt.datetime.frac)) ∧
       (dt.datetime.secs < 9223372036 ∨
          (dt.datetime.secs = 9223372036 ∧ dt.datetime.frac ≤ 854775807))) := by
    unfold NaiveDateTime.toNanos i64Min i64Max
    by_cases hl : 1000000000 ≤ dt.datetime.frac
    · have h59 := he hl
      omega
    · omega
  rw [hle1, hle2]
  constructor
  · intro hs
    apply main.mp
    by_contra hc2
    unfold DateTime.timestampNanos NaiveDateTime.timestampNanos at hs
    rw [if_neg hc2] at hs
    exact absurd hs (by simp)
  · intro hP
    unfold DateTime.timestampNanos NaiveDateTime.timestampNanos
    rw [if_pos (main.mpr hP)]
    rfl

/-- C5 witness: the range characterization applied at the Unix epoch. -/
theorem c5_witness :
    NaiveDateTime.Valid unixEpochNdt ∧
    ((DateTime.timestampNanos unixEpoch).isSome = true ↔
      (NaiveDateTime.le ⟨-9223372037, 145224192⟩ unixEpoch.datetime ∧
       NaiveDateTime.le unixEpoch.datetime ⟨9223372036, 854775807⟩)) :=
  ⟨by decide, (c5_timestamp_nanos_range unixEpoch (by decide)).1⟩

/-- C6: subtraction of two zoned instants over any two timezone types is a
total function equal to the signed difference of the stored UTC instants,
unchanged under any replacement of either offset, agreeing with the `Sub`
operator, and on valid instants the difference always fits within the
duration type's representable range (so the operation can never fail). -/
theorem c6_signed_duration_total {O1 O2 : Type} (a : DateTime O1) (b : DateTime O2)
    (o1 : O1) (o2 : O2) (c e : DateTime O1)
    (hA : a.datetime.Valid) (hB : b.datetime.Valid) :
    signedDurationSince a b = a.datetime.signedDurationSince b.datetime ∧
    a.datetime.signedDurationSince b.datetime = a.datetime.toNanos - b.datetime.toNanos ∧
    signedDurationSince (⟨a.datetime, o1⟩ : DateTime O1) (⟨b.datetime, o2⟩ : DateTime O2) =
      signedDurationSince a b ∧
    DateTime.subDateTime c e = signedDurationSince c e ∧
    durationInRange (signedDurationSince a b) := by
  have hbound : durationInRange (signedDurationSince a b) := by
    unfold NaiveDateTime.Valid at hA hB
    unfold minSecs maxSecs at hA hB
    unfold durationInRange signedDurationSince NaiveDateTime.signedDurationSince
      NaiveDateTime.toNanos timeDeltaMaxNanos
    omega
  exact ⟨rfl, rfl, rfl, rfl, hbound⟩

/-- C6 witness: the totality bound at a concrete pair of valid instants. -/
theorem c6_witness :
    NaiveDateTime.Valid unixEpochNdt ∧
    durationInRange (signedDurationSince unixEpoch unixEpoch) :=
  ⟨by decide,
   (c6_signed_duration_total unixEpoch unixEpoch () () unixEpoch unixEpoch
      (by decide) (by decide)).2.2.2.2⟩

/-- C8: `years_since` returns the year difference, decremented by one
exactly when the `(month, day, time-of-day)` triple of the value is
lexicographically earlier than that of the base, whenever that adjusted
count is nonnegative, and reports failure exactly when it is negative; in
particular an earlier date or time within the same year yields failure,
never a wrapped count. -/
theorem c8_years_since_floor {O : Type} (tz : TimeZoneSpec O) (dt base : DateTime O)
    (k : Int) :
    (DateTime.yearsSince tz dt base = Option.none ↔
      dt.yearOf tz - base.yearOf tz -
        (if TripleLt (dt.monthOf tz, dt.dayOf tz, dt.timeOfDay tz)
            (base.monthOf tz, base.dayOf tz, base.timeOfDay tz) then 1 else 0) < 0) ∧
    (DateTime.yearsSince tz dt base = some k ↔
      k = dt.yearOf tz - base.yearOf tz -
        (if TripleLt (dt.monthOf tz, dt.dayOf tz, dt.timeOfDay tz)
            (base.monthOf tz, base.dayOf tz, base.timeOfDay tz) then 1 else 0) ∧ 0 ≤ k) ∧
    (dt.yearOf tz = base.yearOf tz →
      TripleLt (dt.monthOf tz, dt.dayOf tz, dt.timeOfDay tz)
        (base.monthOf tz, base.dayOf tz, base.timeOfDay tz) →
      DateTime.yearsSince tz dt base = Option.none) := by
  have gen : ∀ X : Int,
      ((if 0 ≤ X then some X else Option.none) = Option.none ↔ X < 0) ∧
      (∀ kk : Int, (if 0 ≤ X then some X else Option.none) = some kk ↔ (kk = X ∧ 0 ≤ kk)) := by
    intro X
    constructor
    · split <;> rename_i hX <;> simp <;> omega
    · intro kk
      split <;> rename_i hX <;> simp
      · constructor
        · intro h
          exact ⟨h.symm, by omega⟩
        · intro ⟨h1, _⟩
          exact h1.symm
      · intro h1
        omega
  by_cases hP : TripleLt (dt.monthOf tz, dt.dayOf tz, dt.timeOfDay tz)
      (base.monthOf tz, base.dayOf tz, base.timeOfDay tz)
  · have hd : decide (TripleLt (dt.monthOf tz, dt.dayOf tz, dt.timeOfDay tz)
        (base.monthOf tz, base.dayOf tz, base.timeOfDay tz)) = true := decide_eq_true hP
    unfold DateTime.yearsSince
    rw [hd]
    simp only [if_true, if_pos hP]
    exact ⟨(gen _).1, (gen _).2 k, fun h1 _ => by rw [(gen _).1]; omega⟩
  · have hd : decide (TripleLt (dt.monthOf tz, dt.dayOf tz, dt.timeOfDay tz)
        (base.monthOf tz, base.dayOf tz, base.timeOfDay tz)) = false :=
      decide_eq_false hP
    unfold DateTime.yearsSince
    rw [hd]
    simp only [if_false, if_neg hP]
    refine ⟨?_, ?_, fun _ h2 => absurd h2 hP⟩
    · have h0 := (gen (dt.yearOf tz - base.yearOf tz)).1
      simp only [show (false = true) = False from by simp, if_false, sub_zero]
      exact h0
    · have h0 := (gen (dt.yearOf tz - base.yearOf tz)).2 k
      simp only [show (false = true) = False from by simp, if_false, sub_zero]
      exact h0

/-- C8 witness: an earlier month within the same year yields failure. -/
theorem c8_witness :
    DateTime.yearOf utcTz (⟨⟨daysFromCivil 2010 3 1 * 86400, 0⟩, ()⟩ : DateTime Unit) =
      DateTime.yearOf utcTz (⟨⟨daysFromCivil 2010 6 1 * 86400, 0⟩, ()⟩ : DateTime Unit) ∧
    DateTime.yearsSince utcTz (⟨⟨daysFromCivil 2010 3 1 * 86400, 0⟩, ()⟩ : DateTime Unit)
      (⟨⟨daysFromCivil 2010 6 1 * 86400, 0⟩, ()⟩ : DateTime Unit) = Option.none :=
  ⟨by decide,
   (c8_years_since_floor utcTz (⟨⟨daysFromCivil 2010 3 1 * 86400, 0⟩, ()⟩ : DateTime Unit)
      (⟨⟨daysFromCivil 2010 6 1 * 86400, 0⟩, ()⟩ : DateTime Unit) 0).2.2
     (by decide) (by decide)⟩

/-- C9: the full-consumption RFC 3339 entry point reports the distinct
too-long failure whenever non-empty input remains after a valid prefix,
while `parse_and_remainder` succeeds on such input and returns the value
together with the unconsumed remainder; and both custom-format entry points
require a timezone in the input, failing with the not-enough error whenever
the parsed fields carry no offset. -/
theorem c9_parse_remainder_timezone
    (eng3339 : String → Except ParseErrorKind (Parsed × String))
    (engFull : String → String → Except ParseErrorKind Parsed)
    (engRem : String → String → Except ParseErrorKind (Parsed × String))
    (s fmt : String) (p : Parsed) (rem : String) (d : DateTime Int) :
    (eng3339 s = Except.ok (p, rem) → rem ≠ "" →
      DateTime.parseFromRfc3339 eng3339 s = Except.error ParseErrorKind.tooLong) ∧
    (engRem s fmt = Except.ok (p, rem) → Parsed.toDatetime p = Except.ok d →
      DateTime.parseAndRemainder engRem s fmt = Except.ok (d, rem)) ∧
    (p.offset = Option.none → Parsed.toDatetime p = Except.error ParseErrorKind.notEnough) ∧
    (engFull s fmt = Except.ok p → p.offset = Option.none →
      DateTime.parseFromStr engFull s fmt = Except.error ParseErrorKind.notEnough) ∧
    (engRem s fmt = Except.ok (p, rem) → p.offset = Option.none →
      DateTime.parseAndRemainder engRem s fmt = Except.error ParseErrorKind.notEnough) := by
  have hoff : p.offset = Option.none →
      Parsed.toDatetime p = Except.error ParseErrorKind.notEnough := by
    intro h
    unfold Parsed.toDatetime
    rw [h]
  refine ⟨?_, ?_, hoff, ?_, ?_⟩
  · intro h hrem
    unfold DateTime.parseFromRfc3339
    rw [h]
    simp [hrem]
  · intro h hres
    unfold DateTime.parseAndRemainder
    rw [h]
    simp [hres]
  · intro h hn
    unfold DateTime.parseFromStr
    rw [h]
    simp [hoff hn]
  · intro h hn
    unfold DateTime.parseAndRemainder
    rw [h]
    simp [hoff hn]

/-- C9 witness: a concrete engine returning trailing input makes the
full-consumption entry point fail with the too-long error. -/
theorem c9_witness :
    (" tail" : String) ≠ "" ∧
    DateTime.parseFromRfc3339
      (fun _ => Except.ok ((⟨some ⟨100, 0⟩, some 60⟩ : Parsed), " tail")) "x" =
      Except.error ParseErrorKind.tooLong :=
  ⟨by decide,
   (c9_parse_remainder_timezone
      (fun _ => Except.ok ((⟨some ⟨100, 0⟩, some 60⟩ : Parsed), " tail"))
      (fun _ _ => Except.error ParseErrorKind.invalid)
      (fun _ _ => Except.error ParseErrorKind.invalid)
      "x" "f" ⟨some ⟨100, 0⟩, some 60⟩ " tail" ⟨⟨40, 0⟩, 60⟩).1 rfl (by decide)⟩

end Chrono
